import Mathlib

/-!
Verification of the parameter-resolution core of the `videoxt` repository
(`videoxt/preppers.py`, with the video model in `videoxt/video.py`).

Python floats are embedded as rationals (`ℚ`), Python ints as `ℤ`/`ℕ`,
`None`-able arguments as `Option`, and raised exceptions as `Except Err`.
The helper modules `videoxt/utils.py`, `videoxt/validators.py` and
`videoxt/exceptions.py` are imported by the sources but are not part of the
provided source tree; the handful of helpers the resolution layer uses from
them (`timestamp_to_seconds`, `seconds_to_timestamp`, `valid_extraction_range`,
`enumerate_filepath`, `enumerate_dir`) are modelled from the specification and
marked as such in their doc comments.
-/

namespace Videoxt

/-- Kinds of errors raised by the resolution layer: `PreparationError`
(`videoxt/exceptions.py`), `RangeError` (range validation) and the timestamp
`FormatError`. -/
inductive Err where
  | preparation
  | range
  | format
  deriving DecidableEq, Repr

/-- A start/stop time as accepted by `ExtractionRange`: a number of seconds
(`float | int`, embedded as `ℚ`) or a timestamp string. -/
inductive TimeVal where
  | num (q : ℚ)
  | str (s : String)
  deriving DecidableEq, Repr

/-- Split a character list on a separator character, mirroring Python's
`str.split`: the empty input yields one empty segment. -/
def splitOnChar (sep : Char) : List Char → List (List Char)
  | [] => [[]]
  | c :: cs =>
    let rest := splitOnChar sep cs
    if c = sep then [] :: rest
    else
      match rest with
      | [] => [[c]]
      | r :: rs => (c :: r) :: rs

/-- The numeric value of a decimal digit character, `none` for anything
else. -/
def digitVal? (c : Char) : Option ℕ :=
  if c = ('0') then some 0
  else if c = ('1') then some 1
  else if c = ('2') then some 2
  else if c = ('3') then some 3
  else if c = ('4') then some 4
  else if c = ('5') then some 5
  else if c = ('6') then some 6
  else if c = ('7') then some 7
  else if c = ('8') then some 8
  else if c = ('9') then some 9
  else none

/-- Accumulate the decimal value of a digit run; any non-digit aborts. -/
def digitsToNatAux : List Char → ℕ → Option ℕ
  | [], acc => some acc
  | c :: cs, acc =>
    match digitVal? c with
    | none => none
    | some v => digitsToNatAux cs (acc * 10 + v)

/-- Python `int(segment)` on a timestamp segment: the segment must be a
nonempty run of digits (a sign character is non-numeric here, so negative
segments are rejected). -/
def segToNat? (cs : List Char) : Option ℕ :=
  match cs with
  | [] => none
  | _ => digitsToNatAux cs 0

/-- Modelled from the spec: helper of `timestamp_to_seconds` in
`videoxt/utils.py` (not in the provided source).  Parses colon-separated
segments least-significant first; each non-final segment (seconds, minutes) is
bounded to `[0, 59]`; a non-numeric, negative or empty segment is a
`FormatError`. `i` is the index of the current segment (seconds = 0). -/
def parseSegsAux : List (List Char) → Nat → Except Err Nat
  | [], _ => .error .format
  | [h], i =>
    match segToNat? h with
    | none => .error .format
    | some v => .ok (v * 60 ^ i)
  | h :: t, i =>
    match segToNat? h with
    | none => .error .format
    | some v =>
      if v > 59 then .error .format
      else (parseSegsAux t (i + 1)).map (fun r => r + v * 60 ^ i)

/-- Modelled from the spec: `timestamp_to_seconds` in `videoxt/utils.py`
(not in the provided source).  Converts an `HH:MM:SS`-style string to seconds;
hours are unbounded, minutes/seconds must lie in `[0, 59]`. -/
def timestamp_to_seconds (s : String) : Except Err ℚ :=
  (parseSegsAux (splitOnChar (':') s.data).reverse 0).map (fun n => (n : ℚ))

/-- Zero-pad a natural number to width 2, as Python does for the minute and
second fields of a timestamp. -/
def pad2 (n : ℕ) : String :=
  if n < 10 then "0" ++ toString n else toString n

/-- Modelled from the spec: `seconds_to_timestamp` in `videoxt/utils.py`
(not in the provided source).  Produces `H:MM:SS` with hours unpadded and
minutes/seconds zero-padded; timestamps carry whole-second resolution, so the
fractional part is dropped.  The source raises `DomainError` on negative
input; that branch is unreachable from the resolution pipeline because range
validation precedes every timestamp derivation, so the model is total. -/
def seconds_to_timestamp (q : ℚ) : String :=
  let t : ℕ := (⌊q⌋).toNat
  toString (t / 3600) ++ ":" ++ pad2 (t / 60 % 60) ++ ":" ++ pad2 (t % 60)

/-- Modelled from the spec: `valid_extraction_range` in
`videoxt/validators.py` (not in the provided source).  Fails with
`RangeError` if `start_second < 0`, if `stop_second > duration_seconds`, or if
`start_second >= stop_second`; otherwise returns the triple unchanged. -/
def valid_extraction_range (start_second stop_second duration_seconds : ℚ) :
    Except Err (ℚ × ℚ × ℚ) :=
  if start_second < 0 ∨ stop_second > duration_seconds ∨ start_second ≥ stop_second then
    .error .range
  else
    .ok (start_second, stop_second, duration_seconds)

/-- `ExtractionRange._prepare_start_second` / `_prepare_stop_second`
(`preppers.py`): a numeric request is used directly, a string request is
converted with `timestamp_to_seconds`. -/
def timeToSeconds (t : TimeVal) : Except Err ℚ :=
  match t with
  | .num q => .ok q
  | .str s => timestamp_to_seconds s

/-- `ExtractionRange._prepare_start_timestamp` / `_prepare_stop_timestamp`
(`preppers.py`): a string request is kept verbatim, a numeric request is
converted with `seconds_to_timestamp`. -/
def timeToTimestamp (t : TimeVal) : String :=
  match t with
  | .str s => s
  | .num q => seconds_to_timestamp q

/-- The validated extraction range produced by `ExtractionRange.to_dict`
(`preppers.py`). -/
structure RangeResult where
  start_second : ℚ
  stop_second : ℚ
  start_timestamp : String
  stop_timestamp : String
  start_frame : ℤ
  stop_frame : ℤ
  deriving DecidableEq, Repr

/-- `ExtractionRange.__post_init__` (`preppers.py`): convert the requested
start and stop times to seconds, validate the range, then derive timestamps
and frame numbers.  `stop_second_attr` models the `stop_second` attribute as
an optional value so that the `frame_count` fallback of
`_prepare_stop_frame` (taken when `self.stop_second is None`) is represented
exactly as in the source; `_prepare_stop_second` always assigns it `some`. -/
def mkExtractionRange (duration_seconds : ℚ) (frame_count : ℤ)
    (start_time stop_time : TimeVal) (fps : ℚ) : Except Err RangeResult :=
  match timeToSeconds start_time with
  | .error e => .error e
  | .ok start_second =>
    match timeToSeconds stop_time with
    | .error e => .error e
    | .ok stop_conv =>
      let stop_second_attr : Option ℚ := some stop_conv
      let stop_second : ℚ := stop_conv
      match valid_extraction_range start_second stop_second duration_seconds with
      | .error e => .error e
      | .ok _ =>
        let start_timestamp := timeToTimestamp start_time
        let stop_timestamp := timeToTimestamp stop_time
        let start_frame : ℤ := ⌊start_second * fps⌋
        let stop_frame : ℤ :=
          match stop_second_attr with
          | none => frame_count
          | some s => ⌊s * fps⌋
        .ok ⟨start_second, stop_second, start_timestamp, stop_timestamp,
             start_frame, stop_frame⟩

/-- `prepare_extraction_range` (`preppers.py`): raises `PreparationError`
when any of the prepared start time, stop time or fps is `None`, otherwise
builds the `ExtractionRange` and returns its dictionary form. -/
def prepare_extraction_range (duration_seconds : ℚ) (frame_count : ℤ)
    (prepared_start_time prepared_stop_time : Option TimeVal)
    (prepared_fps : Option ℚ) : Except Err RangeResult :=
  match prepared_start_time, prepared_stop_time, prepared_fps with
  | some st, some sp, some fps =>
    mkExtractionRange duration_seconds frame_count st sp fps
  | _, _, _ => .error .preparation

/-- `prepare_start_time` (`preppers.py`): the requested start time, or `0`
when absent. -/
def prepare_start_time (request_start_time : Option TimeVal) : TimeVal :=
  request_start_time.getD (.num 0)

/-- `prepare_stop_time` (`preppers.py`): the requested stop time, or the
video duration when absent. -/
def prepare_stop_time (video_duration_seconds : ℚ)
    (request_stop_time : Option TimeVal) : TimeVal :=
  request_stop_time.getD (.num video_duration_seconds)

/-- `prepare_fps` (`preppers.py`): the requested fps, or the video fps when
absent. -/
def prepare_fps (video_fps : ℚ) (request_fps : Option ℚ) : ℚ :=
  request_fps.getD video_fps

/-- Python `int()` applied to a rational: truncation toward zero, as used by
`prepare_dimensions` (`preppers.py`). -/
def truncQ (q : ℚ) : ℤ :=
  if 0 ≤ q then ⌊q⌋ else ⌈q⌉

/-- `prepare_dimensions` (`preppers.py`): the requested dimensions when
provided (only `None` is falsy for a pair of ints), else the video
dimensions; scaled and truncated when the resize factor differs from `1.0`. -/
def prepare_dimensions (video_dimensions : ℤ × ℤ) (resize : ℚ)
    (request_dimensions : Option (ℤ × ℤ)) : ℤ × ℤ :=
  let dims := request_dimensions.getD video_dimensions
  if resize ≠ 1 then (truncQ (dims.1 * resize), truncQ (dims.2 * resize))
  else dims

/-- A filesystem path, as a parent-directory string plus a final name
component.  `pathlib.Path` equality on the paths the resolvers build is
equality of these two components. -/
structure FsPath where
  dir : String
  name : String
  deriving DecidableEq, Repr

/-- The source video file, with its `pathlib` decomposition: parent
directory, stem, and suffix (the suffix includes its leading dot, or is empty
for a suffixless file). -/
structure VideoFile where
  dir : String
  stem : String
  suffix : String
  deriving DecidableEq, Repr

/-- The full path of the video file (`video_filepath`). -/
def VideoFile.path (v : VideoFile) : FsPath :=
  ⟨v.dir, v.stem ++ v.suffix⟩

/-- The `N`-th enumerated candidate probed by `enumerate_filepath`:
`stem + label + N + suffix` in the candidate's directory. -/
def enumVariant (dir stem label suffix : String) (n : ℕ) : FsPath :=
  ⟨dir, stem ++ label ++ toString n ++ suffix⟩

/-- Fuel-bounded search for the first enumerated candidate that does not
exist in `fs`; with fuel exhausted it returns the current candidate (with
`fs` finite and the candidates distinct, fuel `fs.length + 1` always
suffices). -/
def enumFrom (fs : List FsPath) (dir stem label suffix : String) :
    ℕ → ℕ → FsPath
  | n, 0 => enumVariant dir stem label suffix n
  | n, fuel + 1 =>
    let c := enumVariant dir stem label suffix n
    if c ∈ fs then enumFrom fs dir stem label suffix (n + 1) fuel else c

/-- Modelled from the spec: `enumerate_filepath` in `videoxt/utils.py` (not
in the provided source).  Starting from an unsuffixed check of the bare
candidate, probes `stem + label + N + suffix` for increasing `N` and returns
the first path that does not already exist.  The filesystem is modelled as
the list `fs` of existing paths; the candidate is passed as its directory,
stem and suffix. -/
def enumerate_filepath (fs : List FsPath) (dir stem suffix : String)
    (label : String) : FsPath :=
  if (⟨dir, stem ++ suffix⟩ : FsPath) ∈ fs then
    enumFrom fs dir stem label suffix 1 (fs.length + 1)
  else
    ⟨dir, stem ++ suffix⟩

/-- Python's `ps.startswith(".")`: whether the string's first character is a
dot. -/
def startsWithDot (ps : String) : Bool :=
  match ps.data with
  | [] => false
  | c :: _ => c == ('.')

/-- The suffix normalization of `prepare_destpath` (`preppers.py`): keep the
prepared suffix when it already starts with a dot, otherwise prepend one. -/
def normSuffix (ps : String) : String :=
  if startsWithDot ps then ps else "." ++ ps

/-- The filename stem chosen by `prepare_destpath` (`preppers.py`): the
requested filename when it is present and truthy (Python treats the empty
string as falsy), otherwise the video file's stem. -/
def destStem (video : VideoFile) (request_filename : Option String) : String :=
  match request_filename with
  | some f => if f = ("") then video.stem else f
  | none => video.stem

/-- `prepare_destpath` (`preppers.py`): raises `PreparationError` when the
prepared suffix is `None`; normalizes the suffix to carry a leading dot;
builds the candidate from the requested filename (the video stem when absent
or empty, since Python tests the string's truthiness) in the requested
directory (the video's directory when absent); returns the candidate when
overwrite is allowed and the candidate differs from the video path, and
otherwise defers to `enumerate_filepath` with label `"_vxt"`. -/
def prepare_destpath (fs : List FsPath) (video : VideoFile)
    (request_filename : Option String) (request_destdir : Option String)
    (prepared_suffix : Option String) (prepared_overwrite : Option Bool) :
    Except Err FsPath :=
  match prepared_suffix with
  | none => .error .preparation
  | some ps =>
    let ow := prepared_overwrite.getD false
    let base_dir := request_destdir.getD video.dir
    let suffix := normSuffix ps
    let stem := destStem video request_filename
    let dest : FsPath := ⟨base_dir, stem ++ suffix⟩
    if ow = true ∧ dest ≠ video.path then .ok dest
    else .ok (enumerate_filepath fs base_dir stem suffix ("_vxt"))

/-- Modelled from the spec: `enumerate_dir` in `videoxt/utils.py` (not in
the provided source).  The directory-path twin of `enumerate_filepath`: the
same bare-candidate-then-enumerate policy, probing `name + label + N` with no
media suffix. -/
def enumerate_dir (fs : List FsPath) (d : FsPath) (label : String) : FsPath :=
  if d ∈ fs then enumFrom fs d.dir d.name label ("") 1 (fs.length + 1)
  else d

/-- The default frames directory computed by `prepare_destpath_frames`:
`video_filepath.parent / video_filepath.name` (the video's full name,
extension included). -/
def defaultFramesDir (video : VideoFile) : FsPath :=
  ⟨video.dir, video.stem ++ video.suffix⟩

/-- `prepare_destpath_frames` (`preppers.py`): with no requested directory,
either the child directory `"_frames"` of the default directory (overwrite
allowed) or the enumeration of the default directory with label `"_frames"`
(overwrite disallowed); a requested directory is returned as-is. -/
def prepare_destpath_frames (fs : List FsPath) (video : VideoFile)
    (request_destdir : Option FsPath) (prepared_overwrite : Option Bool) :
    FsPath :=
  let ow := prepared_overwrite.getD false
  match request_destdir with
  | none =>
    let dd := defaultFramesDir video
    if ow = true then ⟨dd.dir ++ "/" ++ dd.name, "_frames"⟩
    else enumerate_dir fs dd ("_frames")
  | some d => d

/-- `prepare_images_expected` (`preppers.py`): raises `PreparationError`
when any input is `None` or (via Python's `ZeroDivisionError`) when the
capture rate is zero; otherwise `ceil((stop_frame - start_frame) /
capture_rate)` with exact division. -/
def prepare_images_expected (start_frame stop_frame capture_rate : Option ℤ) :
    Except Err ℤ :=
  match start_frame, stop_frame, capture_rate with
  | some a, some b, some c =>
    if c = 0 then .error .preparation
    else .ok ⌈((b : ℚ) - (a : ℚ)) / (c : ℚ)⌉
  | _, _, _ => .error .preparation

/-! ## Helper lemmas -/

/-- `parseSegsAux` either fails with a `FormatError` or succeeds: no other
error kind can arise from timestamp parsing. -/
theorem parseSegsAux_shape (l : List (List Char)) : ∀ i : ℕ,
    parseSegsAux l i = .error .format ∨ ∃ n, parseSegsAux l i = .ok n := by
  induction l with
  | nil => intro i; left; rfl
  | cons hd tl ih =>
    intro i
    cases tl with
    | nil =>
      cases hv : segToNat? hd with
      | none => left; simp [parseSegsAux, hv]
      | some v => right; exact ⟨v * 60 ^ i, by simp [parseSegsAux, hv]⟩
    | cons hd2 tl2 =>
      cases hv : segToNat? hd with
      | none => left; simp [parseSegsAux, hv]
      | some v =>
        by_cases h59 : v > 59
        · left; simp [parseSegsAux, hv, h59]
        · rcases ih (i + 1) with he | ⟨n, hn⟩
          · left; simp [parseSegsAux, hv, h59, he, Except.map]
          · right
            exact ⟨n + v * 60 ^ i, by simp [parseSegsAux, hv, h59, hn, Except.map]⟩

/-- `timeToSeconds` either fails with a `FormatError` or succeeds. -/
theorem timeToSeconds_shape (t : TimeVal) :
    timeToSeconds t = .error .format ∨ ∃ q, timeToSeconds t = .ok q := by
  cases t with
  | num q => right; exact ⟨q, rfl⟩
  | str s =>
    rcases parseSegsAux_shape ((splitOnChar (':') s.data).reverse) 0
      with he | ⟨n, hn⟩
    · left; simp [timeToSeconds, timestamp_to_seconds, he, Except.map]
    · right
      exact ⟨(n : ℚ),
        by simp [timeToSeconds, timestamp_to_seconds, hn, Except.map]⟩

/-- Range validation either fails with a `RangeError` or returns its inputs. -/
theorem valid_extraction_range_shape (a b d : ℚ) :
    valid_extraction_range a b d = .error .range ∨
    valid_extraction_range a b d = .ok (a, b, d) := by
  unfold valid_extraction_range
  split
  · left; rfl
  · right; rfl

/-- `ExtractionRange` construction never raises `PreparationError`: its only
failure kinds are `FormatError` (timestamp parsing) and `RangeError`
(validation). -/
theorem mkExtractionRange_ne_preparation (d : ℚ) (fc : ℤ)
    (st sp : TimeVal) (fps : ℚ) :
    mkExtractionRange d fc st sp fps ≠ .error .preparation := by
  unfold mkExtractionRange
  rcases timeToSeconds_shape st with h1 | ⟨q1, h1⟩ <;> rw [h1]
  · simp
  rcases timeToSeconds_shape sp with h2 | ⟨q2, h2⟩ <;> rw [h2]
  · simp
  rcases valid_extraction_range_shape q1 q2 d with h3 | h3 <;> simp [h3]

/-- Reduction of `ExtractionRange` construction once both endpoints
normalize to seconds: validation decides between `RangeError` and the fully
derived record. -/
theorem mkExtractionRange_eq (d : ℚ) (fc : ℤ) (st sp : TimeVal) (fps : ℚ)
    (ss ts : ℚ) (hs : timeToSeconds st = .ok ss)
    (ht : timeToSeconds sp = .ok ts) :
    mkExtractionRange d fc st sp fps =
      if ss < 0 ∨ ts > d ∨ ss ≥ ts then .error .range
      else .ok ⟨ss, ts, timeToTimestamp st, timeToTimestamp sp,
                ⌊ss * fps⌋, ⌊ts * fps⌋⟩ := by
  unfold mkExtractionRange valid_extraction_range
  rw [hs, ht]
  by_cases hcond : ss < 0 ∨ ts > d ∨ ss ≥ ts
  · simp only [if_pos hcond]
  · simp only [if_neg hcond]

/-! ## Claim theorems -/

/-- Claim C3: `prepare_extraction_range` raises `PreparationError` — a kind
distinct from `RangeError` — exactly when at least one of the prepared start
time, stop time or fps is absent; with all three present no
`PreparationError` can arise from any later conversion or validation step. -/
theorem prepare_extraction_range_preparation_iff (d : ℚ) (fc : ℤ)
    (st sp : Option TimeVal) (fps : Option ℚ) :
    prepare_extraction_range d fc st sp fps = .error .preparation ↔
      st = none ∨ sp = none ∨ fps = none := by
  cases st <;> cases sp <;> cases fps <;>
    simp [prepare_extraction_range, mkExtractionRange_ne_preparation]

/-- Witness for C3: with an absent start time (and even a malformed stop
timestamp), the result is exactly `PreparationError`. -/
theorem prepare_extraction_range_preparation_iff_witness :
    prepare_extraction_range 20 600 none (some (.str ("bogus"))) (some 30) =
      .error .preparation :=
  (prepare_extraction_range_preparation_iff 20 600 none
    (some (.str ("bogus"))) (some 30)).mpr (Or.inl rfl)

/-- Claim C2: with all inputs present and both endpoints normalizing to
seconds `ss` and `ts`, resolution fails with `RangeError` exactly when
`ss < 0`, `ts > duration`, or `ss ≥ ts`; and every range with
`0 ≤ ss < ts ≤ duration` resolves successfully. -/
theorem prepare_extraction_range_range_validation (d : ℚ) (fc : ℤ)
    (st sp : TimeVal) (fps : ℚ) (ss ts : ℚ)
    (hs : timeToSeconds st = .ok ss) (ht : timeToSeconds sp = .ok ts) :
    (prepare_extraction_range d fc (some st) (some sp) (some fps) =
        .error .range ↔ ss < 0 ∨ ts > d ∨ ss ≥ ts) ∧
    (0 ≤ ss ∧ ss < ts ∧ ts ≤ d →
      ∃ r, prepare_extraction_range d fc (some st) (some sp) (some fps) =
        .ok r) := by
  rw [show prepare_extraction_range d fc (some st) (some sp) (some fps) =
      mkExtractionRange d fc st sp fps from rfl,
    mkExtractionRange_eq d fc st sp fps ss ts hs ht]
  constructor
  · by_cases hcond : ss < 0 ∨ ts > d ∨ ss ≥ ts
    · simp [hcond]
    · simp [hcond]
  · intro hgood
    have hcond : ¬(ss < 0 ∨ ts > d ∨ ss ≥ ts) := by
      push_neg
      exact ⟨by linarith [hgood.1], by linarith [hgood.2.2],
        by linarith [hgood.2.1]⟩
    rw [if_neg hcond]
    exact ⟨_, rfl⟩

/-- Witness for C2: duration 20, start 10, stop 20 resolves; the
`RangeError` condition is equivalent to a false disjunction. -/
theorem prepare_extraction_range_range_validation_witness :
    (prepare_extraction_range 20 600 (some (.num 10)) (some (.num 20))
        (some 30) = .error .range ↔
      (10 : ℚ) < 0 ∨ (20 : ℚ) > 20 ∨ (10 : ℚ) ≥ 20) ∧
    ((0 : ℚ) ≤ 10 ∧ (10 : ℚ) < 20 ∧ (20 : ℚ) ≤ 20 →
      ∃ r, prepare_extraction_range 20 600 (some (.num 10)) (some (.num 20))
        (some 30) = .ok r) :=
  prepare_extraction_range_range_validation 20 600 (.num 10) (.num 20) 30
    10 20 rfl rfl

/-- Claim C1 (counterexample): with duration 20, frame count 600, fps 30,
start time 10 and the literal stop time `0`, resolution raises `RangeError`
(`10 ≥ 0`): the code does not treat a stop time of `0` as a sentinel for
"to end". -/
theorem stop_time_zero_is_not_a_sentinel :
    prepare_extraction_range 20 600 (some (.num 10)) (some (.num 0))
      (some 30) = .error .range := rfl

/-- Claim C1 (amended): the "to end" sentinel is an *absent* stop time,
which `prepare_stop_time` resolves to the video duration before
`prepare_extraction_range` runs; with duration 20, frame count 600, fps 30,
start time 10 and the stop time defaulted from an absent request, the
resolved range has start second 10, stop second 20, start frame 300 and
stop frame 600. -/
theorem defaulted_stop_time_resolves_to_end :
    prepare_extraction_range 20 600 (some (.num 10))
      (some (prepare_stop_time 20 none)) (some 30) =
      .ok ⟨10, 20, ("0:00:10"), ("0:00:20"), 300, 600⟩ := by
  rw [show prepare_stop_time 20 none = TimeVal.num 20 from rfl]
  rw [show prepare_extraction_range 20 600 (some (.num 10)) (some (.num 20))
      (some 30) = mkExtractionRange 20 600 (.num 10) (.num 20) 30 from rfl]
  rw [mkExtractionRange_eq 20 600 (.num 10) (.num 20) 30 10 20 rfl rfl]
  rw [if_neg (by norm_num)]
  simp only [Except.ok.injEq, RangeResult.mk.injEq]
  exact ⟨by norm_num, by norm_num, rfl, rfl, by norm_num, by norm_num⟩

/-- Claim C4: `prepare_dimensions` bases its result on the requested
dimensions when provided and the video dimensions otherwise; a resize factor
of `1.0` leaves the base unchanged, any other factor multiplies each
component and truncates to an integer; `(1920, 1080)` at factor `0.5` gives
`(960, 540)`. -/
theorem prepare_dimensions_spec (vd rd : ℤ × ℤ) (resize : ℚ) :
    prepare_dimensions vd 1 (some rd) = rd ∧
    prepare_dimensions vd 1 none = vd ∧
    (resize ≠ 1 →
      prepare_dimensions vd resize (some rd) =
        (truncQ (rd.1 * resize), truncQ (rd.2 * resize)) ∧
      prepare_dimensions vd resize none =
        (truncQ (vd.1 * resize), truncQ (vd.2 * resize))) ∧
    prepare_dimensions (1920, 1080) (1 / 2) none = (960, 540) := by
  refine ⟨by simp [prepare_dimensions], by simp [prepare_dimensions],
    fun h => ⟨by simp [prepare_dimensions, h], by simp [prepare_dimensions, h]⟩,
    ?_⟩
  simp only [prepare_dimensions, truncQ, Option.getD]
  norm_num

/-- Witness for C4: factor `1/2` is not `1`, so both bases are scaled and
truncated. -/
theorem prepare_dimensions_spec_witness :
    prepare_dimensions (1920, 1080) (1 / 2) (some (11, 21)) =
      (truncQ ((11 : ℤ) * (1 / 2 : ℚ)), truncQ ((21 : ℤ) * (1 / 2 : ℚ))) ∧
    prepare_dimensions (1920, 1080) (1 / 2) none =
      (truncQ ((1920 : ℤ) * (1 / 2 : ℚ)), truncQ ((1080 : ℤ) * (1 / 2 : ℚ))) :=
  (prepare_dimensions_spec (1920, 1080) (11, 21) (1 / 2)).2.2.1 (by norm_num)

/-- Claim C5: `prepare_images_expected` raises `PreparationError` exactly
when an input is absent or the capture rate is zero; otherwise it returns
`ceil((stop_frame - start_frame) / capture_rate)`, in particular `300` for
`(0, 300, 1)` and `43` for capture rate `7`. -/
theorem prepare_images_expected_spec (sa sb sc : Option ℤ) (a b c : ℤ) :
    (prepare_images_expected sa sb sc = .error .preparation ↔
      sa = none ∨ sb = none ∨ sc = none ∨ sc = some 0) ∧
    (c ≠ 0 → prepare_images_expected (some a) (some b) (some c) =
      .ok ⌈((b : ℚ) - (a : ℚ)) / (c : ℚ)⌉) ∧
    prepare_images_expected (some 0) (some 300) (some 1) = .ok 300 ∧
    prepare_images_expected (some 0) (some 300) (some 7) = .ok 43 := by
  refine ⟨?_, fun h => by simp [prepare_images_expected, h], ?_, ?_⟩
  · cases sa <;> cases sb <;> cases sc <;> simp [prepare_images_expected]
  · simp only [prepare_images_expected]
    rw [if_neg (by norm_num)]
    simp only [Except.ok.injEq]
    rw [Int.ceil_eq_iff]; norm_num
  · simp only [prepare_images_expected]
    rw [if_neg (by norm_num)]
    simp only [Except.ok.injEq]
    rw [Int.ceil_eq_iff]; norm_num

/-- Witness for C5: capture rate `7` is nonzero, so the exact-ceiling
formula applies. -/
theorem prepare_images_expected_spec_witness :
    prepare_images_expected (some 0) (some 300) (some 7) =
      .ok ⌈((300 : ℚ) - (0 : ℚ)) / (7 : ℚ)⌉ :=
  (prepare_images_expected_spec (some 0) (some 300) (some 7) 0 300 7).2.1
    (by decide)

/-- Every run of the fuel-bounded enumeration search returns one of the
enumerated candidates. -/
theorem enumFrom_shape (fs : List FsPath) (dir stem label suffix : String) :
    ∀ fuel n : ℕ, ∃ m, enumFrom fs dir stem label suffix n fuel =
      enumVariant dir stem label suffix m := by
  intro fuel
  induction fuel with
  | zero => intro n; exact ⟨n, rfl⟩
  | succ k ih =>
    intro n
    unfold enumFrom
    by_cases hmem : enumVariant dir stem label suffix n ∈ fs
    · simpa [hmem] using ih (n + 1)
    · exact ⟨n, by simp [hmem]⟩

/-- An enumerated candidate with a nonempty label never collides with the
bare candidate `stem ++ suffix`: its name is strictly longer. -/
theorem enumVariant_ne_bare (dir stem label suffix : String) (m : ℕ)
    (hlen : 0 < label.length) :
    enumVariant dir stem label suffix m ≠ (⟨dir, stem ++ suffix⟩ : FsPath) := by
  intro hEq
  have h2 : (stem ++ label ++ toString m ++ suffix).length =
      (stem ++ suffix).length :=
    congrArg (fun p : FsPath => p.name.length) hEq
  simp [String.length_append] at h2
  omega

/-- When the bare candidate exists, `enumerate_filepath` returns an
enumerated candidate. -/
theorem enumerate_filepath_of_mem (fs : List FsPath) (dir stem suffix : String)
    (label : String) (h : (⟨dir, stem ++ suffix⟩ : FsPath) ∈ fs) :
    ∃ m, enumerate_filepath fs dir stem suffix label =
      enumVariant dir stem label suffix m := by
  unfold enumerate_filepath
  rw [if_pos h]
  exact enumFrom_shape fs dir stem label suffix (fs.length + 1) 1

/-- Claim C6: when the video file exists, `prepare_destpath` with overwrite
allowed never returns the video path itself: a candidate equal to the video
path falls through to enumeration, whose result carries the `"_vxt"` label
and is therefore a different name. -/
theorem prepare_destpath_never_video (fs : List FsPath) (video : VideoFile)
    (rf : Option String) (rd : Option String) (ps : String) (p : FsPath)
    (hvid : video.path ∈ fs)
    (h : prepare_destpath fs video rf rd (some ps) (some true) = .ok p) :
    p ≠ video.path := by
  unfold prepare_destpath at h
  dsimp only at h
  by_cases hne : (⟨rd.getD video.dir,
      destStem video rf ++ normSuffix ps⟩ : FsPath) ≠ video.path
  · rw [if_pos ⟨rfl, hne⟩] at h
    cases h
    exact hne
  · rw [if_neg (fun hcon => hne hcon.2)] at h
    push_neg at hne
    cases h
    by_cases hbare : (⟨rd.getD video.dir,
        destStem video rf ++ normSuffix ps⟩ : FsPath) ∈ fs
    · rcases enumerate_filepath_of_mem fs (rd.getD video.dir)
        (destStem video rf) (normSuffix ps) ("_vxt") hbare with ⟨m, hm⟩
      rw [hm, ← hne]
      exact enumVariant_ne_bare _ _ _ _ m (by decide)
    · rw [hne] at hbare
      exact absurd hvid hbare

/-- Witness for C6: video `/v/a.mp4` exists, the default candidate collides
with it, and the returned enumerated path `a_vxt1.mp4` differs from the
video path. -/
theorem prepare_destpath_never_video_witness :
    (⟨("/v"), ("a_vxt1.mp4")⟩ : FsPath) ≠
      (VideoFile.mk ("/v") ("a") (".mp4")).path :=
  prepare_destpath_never_video [⟨("/v"), ("a.mp4")⟩]
    (VideoFile.mk ("/v") ("a") (".mp4")) none none (".mp4")
    ⟨("/v"), ("a_vxt1.mp4")⟩ (by decide) rfl

/-- Claim C7 (counterexample): an empty-string suffix is not rejected.
`prepare_destpath` only raises `PreparationError` for an absent (`None`)
suffix; with `prepared_suffix = ""` it succeeds, normalizing the suffix to a
bare dot. -/
theorem empty_suffix_not_rejected :
    prepare_destpath [] (VideoFile.mk ("/v") ("a") (".mp4")) none none
      (some ("")) (some true) = .ok ⟨("/v"), ("a.")⟩ := rfl

/-- Claim C7 (amended): `prepare_destpath` raises `PreparationError` exactly
when the prepared suffix is absent (`None`) — the empty string is not
rejected; every call with a present suffix succeeds, and the returned
path's name ends with the normalized suffix, which is the supplied suffix
itself when it already starts with a dot and the supplied suffix with a dot
prepended otherwise. -/
theorem prepare_destpath_suffix_policy (fs : List FsPath) (video : VideoFile)
    (rf rd : Option String) (ow : Option Bool) :
    prepare_destpath fs video rf rd none ow = .error .preparation ∧
    ∀ s : String, ∃ p pre,
      prepare_destpath fs video rf rd (some s) ow = .ok p ∧
      p.name = pre ++ normSuffix s ∧
      ((startsWithDot s = true ∧ normSuffix s = s) ∨
       (startsWithDot s = false ∧ normSuffix s = "." ++ s)) := by
  refine ⟨rfl, fun s => ?_⟩
  have hsfx : (startsWithDot s = true ∧ normSuffix s = s) ∨
      (startsWithDot s = false ∧ normSuffix s = "." ++ s) := by
    unfold normSuffix
    cases hd : startsWithDot s
    · right; simp
    · left; simp
  unfold prepare_destpath
  dsimp only
  by_cases hc : ow.getD false = true ∧
      (⟨rd.getD video.dir, destStem video rf ++ normSuffix s⟩ : FsPath) ≠
        video.path
  · rw [if_pos hc]
    exact ⟨_, destStem video rf, rfl, rfl, hsfx⟩
  · rw [if_neg hc]
    unfold enumerate_filepath
    by_cases hbare : (⟨rd.getD video.dir,
        destStem video rf ++ normSuffix s⟩ : FsPath) ∈ fs
    · rw [if_pos hbare]
      rcases enumFrom_shape fs (rd.getD video.dir) (destStem video rf)
        ("_vxt") (normSuffix s) (fs.length + 1) 1 with ⟨m, hm⟩
      rw [hm]
      exact ⟨_, destStem video rf ++ ("_vxt") ++ toString (m : ℕ), rfl, rfl, hsfx⟩
    · rw [if_neg hbare]
      exact ⟨_, destStem video rf, rfl, rfl, hsfx⟩

/-- Claim C9 (counterexample): an explicitly requested frames destination
directory is returned as-is, even when it already exists and overwrite is
disallowed — no enumeration is applied to it. -/
theorem explicit_destdir_not_enumerated :
    prepare_destpath_frames [⟨("/o"), ("out")⟩]
      (VideoFile.mk ("/v") ("a") (".mp4"))
      (some ⟨("/o"), ("out")⟩) (some false) = ⟨("/o"), ("out")⟩ ∧
    (⟨("/o"), ("out")⟩ : FsPath) ∈ [(⟨("/o"), ("out")⟩ : FsPath)] :=
  ⟨rfl, by decide⟩

/-- Claim C9 (amended): `prepare_destpath_frames` applies the
overwrite/enumerate policy only when no explicit destination directory is
requested: an explicit directory is returned unchanged, while in the default
case with overwrite disallowed and the default directory existing, the
result is an enumerated `"_frames"` variant distinct from the default. -/
theorem prepare_destpath_frames_policy (fs : List FsPath) (video : VideoFile)
    (d : FsPath) (ow : Option Bool)
    (hmem : defaultFramesDir video ∈ fs) :
    prepare_destpath_frames fs video (some d) ow = d ∧
    ∃ n : ℕ, prepare_destpath_frames fs video none (some false) =
        ⟨(defaultFramesDir video).dir,
          (defaultFramesDir video).name ++ ("_frames") ++ toString n⟩ ∧
      prepare_destpath_frames fs video none (some false) ≠
        defaultFramesDir video := by
  refine ⟨rfl, ?_⟩
  have hred : prepare_destpath_frames fs video none (some false) =
      enumerate_dir fs (defaultFramesDir video) ("_frames") := by
    unfold prepare_destpath_frames
    dsimp only
    rw [if_neg (by simp)]
  rw [hred]
  unfold enumerate_dir
  rw [if_pos hmem]
  rcases enumFrom_shape fs (defaultFramesDir video).dir
    (defaultFramesDir video).name ("_frames") ("") (fs.length + 1) 1
    with ⟨m, hm⟩
  rw [hm]
  refine ⟨m, ?_, ?_⟩
  · simp [enumVariant, String.append_empty]
  · have hne := enumVariant_ne_bare (defaultFramesDir video).dir
      (defaultFramesDir video).name ("_frames") ("") m (by decide)
    have heq : (⟨(defaultFramesDir video).dir,
        (defaultFramesDir video).name ++ ("")⟩ : FsPath) =
        defaultFramesDir video := by
      rw [String.append_empty]
    rw [heq] at hne
    exact hne

/-- Witness for C9: with the default frames directory existing in the
filesystem, the amended policy instantiates at a concrete video and explicit
directory. -/
theorem prepare_destpath_frames_policy_witness :
    prepare_destpath_frames [⟨("/v"), ("a.mp4")⟩]
      (VideoFile.mk ("/v") ("a") (".mp4")) (some ⟨("/o"), ("out")⟩)
      (some false) = ⟨("/o"), ("out")⟩ ∧
    ∃ n : ℕ, prepare_destpath_frames [⟨("/v"), ("a.mp4")⟩]
        (VideoFile.mk ("/v") ("a") (".mp4")) none (some false) =
        ⟨(defaultFramesDir (VideoFile.mk ("/v") ("a") (".mp4"))).dir,
          (defaultFramesDir (VideoFile.mk ("/v") ("a") (".mp4"))).name ++
            ("_frames") ++ toString n⟩ ∧
      prepare_destpath_frames [⟨("/v"), ("a.mp4")⟩]
        (VideoFile.mk ("/v") ("a") (".mp4")) none (some false) ≠
        defaultFramesDir (VideoFile.mk ("/v") ("a") (".mp4")) :=
  prepare_destpath_frames_policy [⟨("/v"), ("a.mp4")⟩]
    (VideoFile.mk ("/v") ("a") (".mp4")) ⟨("/o"), ("out")⟩ (some false)
    (by decide)

/-- Claim C8: in every successful resolution, an endpoint supplied as a
timestamp string is echoed back verbatim as the resolved timestamp, and an
endpoint supplied as a number yields the timestamp computed from that number
by `seconds_to_timestamp`. -/
theorem resolved_timestamps (d : ℚ) (fc : ℤ) (st sp : TimeVal) (fps : ℚ)
    (r : RangeResult)
    (h : prepare_extraction_range d fc (some st) (some sp) (some fps) =
      .ok r) :
    r.start_timestamp = (match st with
      | .str s => s
      | .num q => seconds_to_timestamp q) ∧
    r.stop_timestamp = (match sp with
      | .str s => s
      | .num q => seconds_to_timestamp q) := by
  rw [show prepare_extraction_range d fc (some st) (some sp) (some fps) =
      mkExtractionRange d fc st sp fps from rfl] at h
  rcases timeToSeconds_shape st with h1 | ⟨ss, h1⟩
  · unfold mkExtractionRange at h
    rw [h1] at h
    simp at h
  rcases timeToSeconds_shape sp with h2 | ⟨ts, h2⟩
  · unfold mkExtractionRange at h
    rw [h1] at h
    simp [h2] at h
  rw [mkExtractionRange_eq d fc st sp fps ss ts h1 h2] at h
  by_cases hcond : ss < 0 ∨ ts > d ∨ ss ≥ ts
  · rw [if_pos hcond] at h
    simp at h
  · rw [if_neg hcond] at h
    cases h
    constructor
    · show timeToTimestamp st = _
      cases st <;> rfl
    · show timeToTimestamp sp = _
      cases sp <;> rfl

/-- Witness for C8: a string start `"0:00:05"` is echoed back verbatim and a
numeric stop `15` yields the computed timestamp, on a concrete successful
resolution. -/
theorem resolved_timestamps_witness :
    ((⟨5, 15, ("0:00:05"), ("0:00:15"), 150, 450⟩ :
        RangeResult).start_timestamp = (match TimeVal.str ("0:00:05") with
      | .str s => s
      | .num q => seconds_to_timestamp q)) ∧
    ((⟨5, 15, ("0:00:05"), ("0:00:15"), 150, 450⟩ :
        RangeResult).stop_timestamp = (match TimeVal.num 15 with
      | .str s => s
      | .num q => seconds_to_timestamp q)) :=
  resolved_timestamps 20 600 (.str ("0:00:05")) (.num 15) 30
    ⟨5, 15, ("0:00:05"), ("0:00:15"), 150, 450⟩ (by
      rw [show prepare_extraction_range 20 600 (some (.str ("0:00:05")))
          (some (.num 15)) (some 30) =
          mkExtractionRange 20 600 (.str ("0:00:05")) (.num 15) 30 from rfl]
      rw [mkExtractionRange_eq 20 600 (.str ("0:00:05")) (.num 15) 30
        ((5 : ℕ) : ℚ) 15 rfl rfl]
      rw [if_neg (by push_cast; norm_num)]
      simp only [Except.ok.injEq, RangeResult.mk.injEq]
      exact ⟨by push_cast; norm_num, by norm_num, rfl, rfl,
        by push_cast; norm_num, by norm_num⟩)

/-- Claim C10: every successful resolution derives the stop frame as
`floor(stop_second * fps)`; the `frame_count` fallback branch of
`_prepare_stop_frame` is unreachable because `_prepare_stop_second` always
assigns `stop_second` a number before the stop-frame derivation runs, and an
absent stop time is rejected with `PreparationError` beforehand. -/
theorem stop_frame_is_floor (d : ℚ) (fc : ℤ) (st sp : Option TimeVal)
    (fps : ℚ) (r : RangeResult)
    (h : prepare_extraction_range d fc st sp (some fps) = .ok r) :
    r.stop_frame = ⌊r.stop_second * fps⌋ := by
  cases st with
  | none => cases sp <;> simp [prepare_extraction_range] at h
  | some st =>
    cases sp with
    | none => simp [prepare_extraction_range] at h
    | some sp =>
      rw [show prepare_extraction_range d fc (some st) (some sp) (some fps) =
          mkExtractionRange d fc st sp fps from rfl] at h
      rcases timeToSeconds_shape st with h1 | ⟨ss, h1⟩
      · unfold mkExtractionRange at h
        rw [h1] at h
        simp at h
      rcases timeToSeconds_shape sp with h2 | ⟨ts, h2⟩
      · unfold mkExtractionRange at h
        rw [h1] at h
        simp [h2] at h
      rw [mkExtractionRange_eq d fc st sp fps ss ts h1 h2] at h
      by_cases hcond : ss < 0 ∨ ts > d ∨ ss ≥ ts
      · rw [if_pos hcond] at h
        simp at h
      · rw [if_neg hcond] at h
        cases h
        rfl

/-- Witness for C10: on a concrete successful resolution the stop frame is
the floor of `stop_second * fps` (600 = floor of 20 times 30). -/
theorem stop_frame_is_floor_witness :
    (⟨10, 20, ("0:00:10"), ("0:00:20"), 300, 600⟩ :
        RangeResult).stop_frame =
      ⌊(⟨10, 20, ("0:00:10"), ("0:00:20"), 300, 600⟩ :
        RangeResult).stop_second * (30 : ℚ)⌋ :=
  stop_frame_is_floor 20 600 (some (.num 10)) (some (.num 20)) 30
    ⟨10, 20, ("0:00:10"), ("0:00:20"), 300, 600⟩ (by
      rw [show prepare_extraction_range 20 600 (some (.num 10))
          (some (.num 20)) (some 30) =
          mkExtractionRange 20 600 (.num 10) (.num 20) 30 from rfl]
      rw [mkExtractionRange_eq 20 600 (.num 10) (.num 20) 30 10 20 rfl rfl]
      rw [if_neg (by norm_num)]
      simp only [Except.ok.injEq, RangeResult.mk.injEq]
      exact ⟨by norm_num, by norm_num, rfl, rfl, by norm_num, by norm_num⟩)

end Videoxt
